import Mathlib

/-!
Shallow embedding of the polymarket-maker core decision loop, together with
theorems checking the natural-language specification against the code.

Numeric values that the TypeScript source stores in IEEE doubles are modelled
as rationals (and, for the fair-value model which uses exp/log/sqrt, as real
numbers); the embedding mirrors the source expressions exactly, it does not
model floating-point rounding.

Sources embedded here:
  - src/agents/risk.ts       (RiskAgent)
  - src/agents/quoting.ts    (QuotingAgent)
  - src/agents/execution.ts  (ExecutionAgent)
  - src/market-manager.ts    (MarketManager)
  - src/strategies/btc-5min.ts (Btc5MinStrategy.computeFairValue, normalCDF)
-/

namespace PM

/-- Position record, from src/types.ts (interface Position). -/
structure Position where
  yesShares : ℚ
  noShares : ℚ
  netDelta : ℚ
  avgEntryPrice : ℚ
  unrealizedPnl : ℚ
  realizedPnl : ℚ
deriving DecidableEq, Repr

/-- The all-zero position used at construction and on reset (risk.ts). -/
def initialPosition : Position :=
  { yesShares := 0, noShares := 0, netDelta := 0
    avgEntryPrice := 0, unrealizedPnl := 0, realizedPnl := 0 }

/-- Quote record, from src/types.ts (interface Quote). -/
structure Quote where
  bidPrice : ℚ
  askPrice : ℚ
  bidSize : ℚ
  askSize : ℚ
  fairValue : ℚ
  spread : ℚ
  timestamp : ℚ
deriving DecidableEq, Repr

/-- Risk-limit configuration, from src/config.ts (MAX_POSITION, MAX_NOTIONAL,
MAX_LOSS are env-configurable floats with defaults 1000, 5000, 500). -/
structure RiskConfig where
  MAX_POSITION : ℚ
  MAX_NOTIONAL : ℚ
  MAX_LOSS : ℚ
deriving DecidableEq, Repr

/-- The default risk limits from config.ts. -/
def defaultRiskConfig : RiskConfig :=
  { MAX_POSITION := 1000, MAX_NOTIONAL := 5000, MAX_LOSS := 500 }

/-- RiskAction enum from risk.ts. -/
inductive RiskAction where
  | ALLOW
  | REDUCE_ONLY
  | HALT
deriving DecidableEq, Repr

/-- Mutable fields of the RiskAgent class (risk.ts): the position and the
halted flag. -/
structure RiskState where
  position : Position
  halted : Bool
deriving DecidableEq, Repr

/-- RiskAgent state at construction: zero position, not halted. -/
def initialRiskState : RiskState :=
  { position := initialPosition, halted := false }

/-- JavaScript `x || y` on numbers: falls back to y when x is 0 (falsy).
The NaN falsy case has no counterpart in ℚ and is not modelled. -/
def jsOr (x y : ℚ) : ℚ := if x = 0 then y else x

/-- RiskAgent.checkLimits (risk.ts): re-arms the halt on a MAX_LOSS breach
after every fill. The returned Bool records whether a halt signal was
emitted by this call. -/
def checkLimits (cfg : RiskConfig) (s : RiskState) : RiskState × Bool :=
  let totalPnl := s.position.realizedPnl + s.position.unrealizedPnl
  if totalPnl < -cfg.MAX_LOSS then ({ s with halted := true }, true)
  else (s, false)

/-- RiskAgent.processFill (risk.ts). A BUY fill grows yesShares and updates
the volume-weighted average entry price; any other side realizes PnL against
the average entry price and shrinks yesShares. netDelta is then set to
yesShares, and checkLimits runs. The Bool is the emitted halt signal.
In the source the BUY branch divides by newShares; the JS division-by-zero
(NaN) case is mirrored by ℚ division by zero yielding 0. -/
def processFill (cfg : RiskConfig) (side : String) (price size : ℚ)
    (s : RiskState) : RiskState × Bool :=
  let p := s.position
  let p1 :=
    if side = "BUY" then
      let newShares := p.yesShares + size
      { p with
        avgEntryPrice := (p.avgEntryPrice * p.yesShares + price * size) / newShares
        yesShares := newShares }
    else
      { p with
        realizedPnl := p.realizedPnl + (price - p.avgEntryPrice) * size
        yesShares := p.yesShares - size }
  let p2 := { p1 with netDelta := p1.yesShares }
  checkLimits cfg { s with position := p2 }

/-- RiskAgent.updateUnrealizedPnl (risk.ts). -/
def updateUnrealizedPnl (currentFairValue : ℚ) (s : RiskState) : RiskState :=
  { s with position :=
      { s.position with unrealizedPnl :=
          (currentFairValue - s.position.avgEntryPrice) * s.position.yesShares } }

/-- RiskAgent.checkQuote (risk.ts). Returns the updated state, the decided
action, and whether a halt signal was emitted. -/
def checkQuote (cfg : RiskConfig) (q : Quote) (s : RiskState) :
    RiskState × RiskAction × Bool :=
  if s.halted then (s, RiskAction.HALT, false)
  else
    let absPosition := |s.position.netDelta|
    let totalPnl := s.position.realizedPnl + s.position.unrealizedPnl
    if totalPnl < -cfg.MAX_LOSS then
      ({ s with halted := true }, RiskAction.HALT, true)
    else
      let notional := absPosition * jsOr q.fairValue (1/2)
      if notional > cfg.MAX_NOTIONAL then (s, RiskAction.REDUCE_ONLY, false)
      else if absPosition > cfg.MAX_POSITION then (s, RiskAction.REDUCE_ONLY, false)
      else (s, RiskAction.ALLOW, false)

/-- RiskAgent.applyRiskAdjustment (risk.ts). -/
def applyRiskAdjustment (q : Quote) (action : RiskAction) (s : RiskState) : Quote :=
  match action with
  | RiskAction.HALT => { q with bidSize := 0, askSize := 0 }
  | RiskAction.REDUCE_ONLY =>
      if s.position.netDelta > 0 then { q with bidSize := 0 }
      else { q with askSize := 0 }
  | RiskAction.ALLOW => q

/-- RiskAgent.unhalt (risk.ts). -/
def unhalt (s : RiskState) : RiskState := { s with halted := false }

/-- RiskAgent.resetForNewMarket (risk.ts): zeroes the position and clears
the halted flag on a market rotation. -/
def resetForNewMarket (_s : RiskState) : RiskState :=
  { position := initialPosition, halted := false }

/-- The public operations of the RiskAgent that can run between two quote
checks. -/
inductive RiskOp where
  | opCheckQuote (q : Quote)
  | opProcessFill (side : String) (price size : ℚ)
  | opUpdateUnrealizedPnl (fv : ℚ)
  | opUnhalt
  | opResetForNewMarket
deriving DecidableEq

/-- One step of the RiskAgent state machine: dispatch a public operation. -/
def riskStep (cfg : RiskConfig) (s : RiskState) (op : RiskOp) : RiskState :=
  match op with
  | RiskOp.opCheckQuote q => (checkQuote cfg q s).1
  | RiskOp.opProcessFill side price size => (processFill cfg side price size s).1
  | RiskOp.opUpdateUnrealizedPnl fv => updateUnrealizedPnl fv s
  | RiskOp.opUnhalt => unhalt s
  | RiskOp.opResetForNewMarket => resetForNewMarket s

/-- Run a list of RiskAgent operations from a state. -/
def riskRun (cfg : RiskConfig) (s : RiskState) (ops : List RiskOp) : RiskState :=
  ops.foldl (riskStep cfg) s

/-! QuotingAgent (src/agents/quoting.ts). -/

/-- Quoting configuration from config.ts (env-configurable with the listed
defaults): MIN_SPREAD_BPS 200, MAX_SPREAD_BPS 1000, INVENTORY_SKEW_FACTOR
0.001, REQUOTE_THRESHOLD_BPS 50, ORDER_SIZE 50. -/
structure QuotingConfig where
  MIN_SPREAD_BPS : ℚ
  MAX_SPREAD_BPS : ℚ
  INVENTORY_SKEW_FACTOR : ℚ
  REQUOTE_THRESHOLD_BPS : ℚ
  ORDER_SIZE : ℚ
deriving DecidableEq, Repr

/-- Default quoting parameters from config.ts. -/
def defaultQuotingConfig : QuotingConfig :=
  { MIN_SPREAD_BPS := 200, MAX_SPREAD_BPS := 1000
    INVENTORY_SKEW_FACTOR := 1/1000, REQUOTE_THRESHOLD_BPS := 50
    ORDER_SIZE := 50 }

/-- Mutable fields of the QuotingAgent class (quoting.ts). -/
structure QuotingState where
  lastQuote : Option Quote
  btcPrice : ℚ
  volatility : ℚ
  tickSize : ℚ
  position : Position
deriving DecidableEq, Repr

/-- QuotingAgent state at construction (quoting.ts field initializers). -/
def initialQuotingState : QuotingState :=
  { lastQuote := none, btcPrice := 0, volatility := 0
    tickSize := 1/1000, position := initialPosition }

/-- JavaScript Math.round: round half toward positive infinity. -/
def jsRound (x : ℚ) : ℤ := ⌊x + 1/2⌋

/-- roundToTick (quoting.ts): Math.round(price / tickSize) * tickSize. -/
def roundToTick (price tickSize : ℚ) : ℚ :=
  (jsRound (price / tickSize) : ℚ) * tickSize

/-- clampPrice (quoting.ts): round to tick, then clamp into
[tickSize, 1 - tickSize]. -/
def clampPrice (price tickSize : ℚ) : ℚ :=
  max tickSize (min (1 - tickSize) (roundToTick price tickSize))

/-- QuotingAgent.computeSpread (quoting.ts): normalize volatility against a
30 percent floor and an 80 percent ceiling, interpolate between the spread
bounds, and convert bps to a fraction. -/
def computeSpread (cfg : QuotingConfig) (s : QuotingState) : ℚ :=
  let volNormalized := min 1 (max 0 ((s.volatility - 30/100) / (50/100)))
  let spreadBps :=
    cfg.MIN_SPREAD_BPS + volNormalized * (cfg.MAX_SPREAD_BPS - cfg.MIN_SPREAD_BPS)
  spreadBps / 10000

/-- QuotingAgent.shouldRequote (quoting.ts): true when there is no last
quote, or when either side moved at least REQUOTE_THRESHOLD_BPS relative to
the last quote. -/
def shouldRequote (cfg : QuotingConfig) (s : QuotingState) (newQuote : Quote) : Bool :=
  match s.lastQuote with
  | none => true
  | some lq =>
      let bidDiffBps := |newQuote.bidPrice - lq.bidPrice| / lq.bidPrice * 10000
      let askDiffBps := |newQuote.askPrice - lq.askPrice| / lq.askPrice * 10000
      decide (bidDiffBps ≥ cfg.REQUOTE_THRESHOLD_BPS ∨
              askDiffBps ≥ cfg.REQUOTE_THRESHOLD_BPS)

/-- QuotingAgent.computeQuote (quoting.ts). The timestamp argument stands in
for Date.now(). Returns the updated state, the computed quote (none on
rejection), and whether the quote was emitted as a new_quote event. -/
def computeQuote (cfg : QuotingConfig) (s : QuotingState) (fairValue now : ℚ) :
    QuotingState × Option Quote × Bool :=
  if fairValue ≤ 0 ∨ fairValue ≥ 1 then (s, none, false)
  else
    let halfSpread := computeSpread cfg s / 2
    let inventorySkew := -s.position.netDelta * cfg.INVENTORY_SKEW_FACTOR
    let rawBid := fairValue - halfSpread + inventorySkew
    let rawAsk := fairValue + halfSpread + inventorySkew
    let tick := s.tickSize
    let bidPrice := clampPrice rawBid tick
    let askPrice := clampPrice rawAsk tick
    if bidPrice ≥ askPrice then (s, none, false)
    else
      let quote : Quote :=
        { bidPrice := bidPrice, askPrice := askPrice
          bidSize := cfg.ORDER_SIZE, askSize := cfg.ORDER_SIZE
          fairValue := fairValue, spread := askPrice - bidPrice
          timestamp := now }
      let requote := shouldRequote cfg s quote
      ({ s with lastQuote := some quote }, some quote, requote)

/-- A price is an exact multiple of the tick size. -/
def isTickMultiple (price tickSize : ℚ) : Prop :=
  ∃ n : ℤ, price = (n : ℚ) * tickSize

/-! ExecutionAgent (src/agents/execution.ts). -/

/-- ActiveOrders record from src/types.ts; order identifiers are nullable. -/
structure ActiveOrders where
  bidOrderId : Option String
  askOrderId : Option String
  bidPrice : ℚ
  askPrice : ℚ
  bidSize : ℚ
  askSize : ℚ
deriving DecidableEq, Repr

/-- The empty ActiveOrders value used at construction and after cancelAll. -/
def emptyActiveOrders : ActiveOrders :=
  { bidOrderId := none, askOrderId := none
    bidPrice := 0, askPrice := 0, bidSize := 0, askSize := 0 }

/-- The fields of ActiveMarketContext that the ExecutionAgent reads. -/
structure ExecMarket where
  conditionId : String
  yesTokenId : String
  negRisk : Bool
deriving DecidableEq, Repr

/-- Mutable fields of the ExecutionAgent class relevant to the order cycle:
the assigned market, the ActiveOrderSet, and the single in-flight guard. -/
structure ExecState where
  market : Option ExecMarket
  active : ActiveOrders
  cancelInFlight : Bool
deriving DecidableEq, Repr

/-- Venue order-submission response; orderID may be absent. -/
structure OrderResponse where
  orderID : Option String
deriving DecidableEq, Repr

/-- Cycle timing record returned by cancelAndReplace. -/
structure CycleTimings where
  cycleMs : ℚ
  signMs : ℚ
  cancelMs : ℚ
  submitMs : ℚ
deriving DecidableEq, Repr

/-- The all-zero timings returned when a cycle request is dropped. -/
def zeroTimings : CycleTimings :=
  { cycleMs := 0, signMs := 0, cancelMs := 0, submitMs := 0 }

/-- Outcome of one cancelAndReplace invocation. dropped: the request was
discarded by the in-flight/no-market guard before doing anything. completed:
the cycle ran to the end and emitted cycle_complete. errored: an exception
propagated to the catch block and cycle_error was emitted. -/
inductive CycleOutcome where
  | dropped
  | completed (bidId askId : Option String)
  | errored
deriving DecidableEq, Repr

/-- Oracle for the effectful sub-operations of one cancelAndReplace cycle.
An Except.error value means that call raised an exception. The signed-order
payloads do not influence the agent state, so they are abstracted to Unit.
The timings field stands for the wall-clock measurements of a completed
cycle. -/
structure CycleEnv where
  signBid : Except Unit Unit
  signAsk : Except Unit Unit
  cancelHttp : Except Unit Unit
  batchHttp : Except Unit (Option (List OrderResponse))
  singleBidHttp : Except Unit (Option OrderResponse)
  singleAskHttp : Except Unit (Option OrderResponse)
  timings : CycleTimings
deriving Repr

/-- ExecutionAgent.cancelExisting (execution.ts): skips when no resting order
or no market; any exception from the HTTP cancel is caught and turned into
null. This call never propagates an exception. -/
def cancelExisting (env : CycleEnv) (st : ExecState) : Option Unit :=
  if (st.active.bidOrderId.isNone ∧ st.active.askOrderId.isNone) ∨ st.market = none then
    none
  else
    match env.cancelHttp with
    | Except.ok r => some r
    | Except.error _ => none

/-- ExecutionAgent.submitSingle (execution.ts): any exception is caught and
turned into null. -/
def submitSingle (call : Except Unit (Option OrderResponse)) : Option OrderResponse :=
  match call with
  | Except.ok r => r
  | Except.error _ => none

/-- ExecutionAgent.submitOrdersBatch (execution.ts): try the batch endpoint;
on an exception fall back to two individual submissions, each of which
absorbs its own failure. -/
def submitOrdersBatch (env : CycleEnv) :
    Option OrderResponse × Option OrderResponse :=
  match env.batchHttp with
  | Except.ok results =>
      (results.bind (fun l => l.get? 0), results.bind (fun l => l.get? 1))
  | Except.error _ =>
      (submitSingle env.singleBidHttp, submitSingle env.singleAskHttp)

/-- ExecutionAgent.cancelAndReplace (execution.ts). The in-flight guard is
set after the entry check and cleared in the finally block; every returned
state therefore has cancelInFlight = false unless the request was dropped
(in which case the state is returned untouched). An exception propagates to
the catch block exactly when one of the two signing calls raises; cancel and
submission exceptions are absorbed by cancelExisting / submitOrdersBatch. -/
def cancelAndReplace (env : CycleEnv) (st : ExecState) (q : Quote) :
    ExecState × CycleOutcome × CycleTimings :=
  if st.cancelInFlight ∨ st.market = none then (st, CycleOutcome.dropped, zeroTimings)
  else
    match env.signBid, env.signAsk with
    | Except.ok _, Except.ok _ =>
        let _ := cancelExisting env st
        let (bidRes, askRes) := submitOrdersBatch env
        let bidId := bidRes.bind OrderResponse.orderID
        let askId := askRes.bind OrderResponse.orderID
        let newActive : ActiveOrders :=
          { bidOrderId := bidId, askOrderId := askId
            bidPrice := q.bidPrice, askPrice := q.askPrice
            bidSize := q.bidSize, askSize := q.askSize }
        ({ st with active := newActive, cancelInFlight := false },
         CycleOutcome.completed bidId askId, env.timings)
    | _, _ =>
        ({ st with cancelInFlight := false }, CycleOutcome.errored,
         { cycleMs := env.timings.cycleMs, signMs := 0, cancelMs := 0, submitMs := 0 })

/-- ExecutionAgent.handleFill (execution.ts): decrement the matching side's
remaining size (floored at zero) and clear that side's order id when the
size reaches zero; a fill for an unknown order id changes nothing. -/
def handleFill (st : ExecState) (orderId : String) (filledAmount : ℚ) : ExecState :=
  if st.active.bidOrderId = some orderId then
    let newSize := max 0 (st.active.bidSize - filledAmount)
    { st with active :=
        { st.active with
          bidSize := newSize
          bidOrderId := if newSize ≤ 0 then none else st.active.bidOrderId } }
  else if st.active.askOrderId = some orderId then
    let newSize := max 0 (st.active.askSize - filledAmount)
    { st with active :=
        { st.active with
          askSize := newSize
          askOrderId := if newSize ≤ 0 then none else st.active.askOrderId } }
  else st

/-- Scheduler-level view of the in-flight guard: inFlight mirrors the
cancelInFlight boolean, running counts cycle bodies currently executing
between the guard acquisition and the finally block. -/
structure GuardState where
  inFlight : Bool
  running : ℕ
deriving DecidableEq, Repr

/-- Guard events: a cancelAndReplace request arriving (with or without an
assigned market), and a running cycle reaching its finally block. -/
inductive GuardEvent where
  | start (marketPresent : Bool)
  | finish
deriving DecidableEq, Repr

/-- One scheduler step of the guard protocol in cancelAndReplace: a request
finding the guard set (or no market) is dropped without touching anything;
otherwise it sets the guard and a cycle body starts running. A finish event
(the finally block, reached on success and on failure alike) clears the
guard and retires the running cycle. -/
def guardStep (g : GuardState) (e : GuardEvent) : GuardState :=
  match e with
  | GuardEvent.start marketPresent =>
      if g.inFlight ∨ ¬marketPresent then g
      else { inFlight := true, running := g.running + 1 }
  | GuardEvent.finish =>
      if g.running = 0 then g
      else { inFlight := false, running := g.running - 1 }

/-- Guard state at process start. -/
def initialGuardState : GuardState := { inFlight := false, running := 0 }

/-! MarketManager (src/market-manager.ts). -/

/-- MarketInfo from src/strategies/types.ts. -/
structure MarketInfo where
  conditionId : String
  yesTokenId : String
  noTokenId : String
  negRisk : Bool
  tickSize : ℚ
  expiresAt : ℚ
  startedAt : ℚ
  description : String
deriving DecidableEq, Repr

/-- ActiveMarketContext = MarketInfo plus the strike price
(src/strategies/types.ts); the TypeScript intersection type is modelled as a
record pairing the MarketInfo with the strikePrice field. -/
structure ActiveMarketContext where
  info : MarketInfo
  strikePrice : ℚ
deriving DecidableEq, Repr

/-- Rotation event payload emitted as market_switch. -/
structure SwitchEvent where
  prev : Option ActiveMarketContext
  current : ActiveMarketContext
deriving DecidableEq, Repr

/-- Mutable fields of the MarketManager relevant to strike locking. -/
structure MMState where
  current : Option ActiveMarketContext
  initialBtcPrice : ℚ
deriving DecidableEq, Repr

/-- MarketManager state at construction. -/
def initialMMState : MMState := { current := none, initialBtcPrice := 0 }

/-- MarketManager.setInitialBtcPrice (market-manager.ts). This method has no
call site anywhere in the repository, so initialBtcPrice stays 0 for the
lifetime of the process. -/
def setInitialBtcPrice (st : MMState) (price : ℚ) : MMState :=
  { st with initialBtcPrice := price }

/-- Whether the discovered market is the one already active. -/
def sameCondition (cur : Option ActiveMarketContext) (m : MarketInfo) : Bool :=
  match cur with
  | some c => c.info.conditionId = m.conditionId
  | none => false

/-- MarketManager.discoverAndSwitch (market-manager.ts), with the discovery
result passed in as an argument. Returns the new state and the market_switch
event, if one was emitted. -/
def discoverAndSwitch (st : MMState) (discovered : Option MarketInfo) :
    MMState × Option SwitchEvent :=
  match discovered with
  | none => (st, none)
  | some market =>
      if sameCondition st.current market then (st, none)
      else
        let strikePrice := if st.initialBtcPrice > 0 then st.initialBtcPrice else 0
        let ctx : ActiveMarketContext := { info := market, strikePrice := strikePrice }
        ({ st with current := some ctx },
         some { prev := st.current, current := ctx })

/-- MarketManager.updateStrikePrice (market-manager.ts): a no-op when no
window is active or the strike is already locked (strictly positive);
otherwise the observation locks the strike. -/
def updateStrikePrice (st : MMState) (btcPrice : ℚ) : MMState :=
  match st.current with
  | none => st
  | some c =>
      if c.strikePrice > 0 then st
      else { st with current := some { c with strikePrice := btcPrice } }

/-! Btc5MinStrategy fair-value model (src/strategies/btc-5min.ts). The
JavaScript doubles are idealized as real numbers so that exp, log and sqrt
are exact. -/

/-- The Horner polynomial of the Abramowitz and Stegun erf approximation
used by normalCDF: (((((a5 t + a4) t + a3) t + a2) t + a1) t with the
source's coefficients. -/
noncomputable def asPoly (t : ℝ) : ℝ :=
  ((((1.061405429 * t + -1.453152027) * t + 1.421413741) * t + -0.284496736) * t +
      0.254829592) * t

/-- normalCDF (btc-5min.ts): Abramowitz and Stegun approximation of the
standard normal CDF. -/
noncomputable def normalCDF (x : ℝ) : ℝ :=
  let p : ℝ := 0.3275911
  let sign : ℝ := if x < 0 then -1 else 1
  let absX := |x| / Real.sqrt 2
  let t := 1 / (1 + p * absX)
  let y := 1 - asPoly t * Real.exp (-absX * absX)
  0.5 * (1 + sign * y)

/-- Btc5MinStrategy.computeFairValue (btc-5min.ts): log-moneyness divided by
volatility times root time, pushed through normalCDF and clamped to
[0.01, 0.99]; degenerate inputs yield 0.5. -/
noncomputable def computeFairValue
    (btcPrice strikePrice volatility timeToExpiryMs : ℝ) : ℝ :=
  if btcPrice ≤ 0 ∨ strikePrice ≤ 0 ∨ volatility ≤ 0 then 0.5
  else
    let T := max (timeToExpiryMs / 1000 / (365.25 * 24 * 3600)) 1e-10
    let sqrtT := Real.sqrt T
    let d := Real.log (btcPrice / strikePrice) / (volatility * sqrtT)
    max 0.01 (min 0.99 (normalCDF d))

/-! Shared concrete sample inputs used by witnesses and counterexamples. -/

/-- A well-formed sample quote (bid 0.40, ask 0.44, fair value 0.42). -/
def sampleQuote : Quote :=
  { bidPrice := 2/5, askPrice := 11/25, bidSize := 50, askSize := 50
    fairValue := 21/50, spread := 1/25, timestamp := 0 }

/-- A RiskAgent state with the halted flag set. -/
def haltedRiskState : RiskState :=
  { position := initialPosition, halted := true }

/-- A concrete discovered market. -/
def sampleMarketInfo : MarketInfo :=
  { conditionId := "cond-1", yesTokenId := "yes-1", noTokenId := "no-1"
    negRisk := false, tickSize := 1/1000, expiresAt := 300000, startedAt := 0
    description := "BTC up or down" }

/-- The active context produced by rotating to sampleMarketInfo with an
unset strike. -/
def sampleContext : ActiveMarketContext :=
  { info := sampleMarketInfo, strikePrice := 0 }

/-- A concrete market as seen by the ExecutionAgent. -/
def sampleExecMarket : ExecMarket :=
  { conditionId := "cond-1", yesTokenId := "yes-1", negRisk := false }

/-- A concrete ActiveOrderSet with two resting orders. -/
def sampleActiveOrders : ActiveOrders :=
  { bidOrderId := some "b1", askOrderId := some "a1"
    bidPrice := 2/5, askPrice := 11/25, bidSize := 50, askSize := 50 }

/-- A concrete idle ExecutionAgent state with a market assigned. -/
def sampleExecState : ExecState :=
  { market := some sampleExecMarket, active := sampleActiveOrders
    cancelInFlight := false }

/-- A cycle environment in which signing and cancel succeed but the batch
submission and both individual fallback submissions raise exceptions. -/
def envSubmitThrow : CycleEnv :=
  { signBid := Except.ok (), signAsk := Except.ok ()
    cancelHttp := Except.ok (), batchHttp := Except.error ()
    singleBidHttp := Except.error (), singleAskHttp := Except.error ()
    timings := { cycleMs := 7, signMs := 1, cancelMs := 1, submitMs := 5 } }

/-- A cycle environment in which signing the bid order raises. -/
def envSignThrow : CycleEnv :=
  { signBid := Except.error (), signAsk := Except.ok ()
    cancelHttp := Except.ok (), batchHttp := Except.ok none
    singleBidHttp := Except.ok none, singleAskHttp := Except.ok none
    timings := { cycleMs := 4, signMs := 1, cancelMs := 1, submitMs := 2 } }

/-- A quoting state whose market uses a coarse 0.3 tick. -/
def coarseTickState : QuotingState :=
  { lastQuote := none, btcPrice := 0, volatility := 0
    tickSize := 3/10, position := initialPosition }

/-- The quote computeQuote produces from the initial quoting state at fair
value 0.5. -/
def unitTickQuote : Quote :=
  { bidPrice := 49/100, askPrice := 51/100, bidSize := 50, askSize := 50
    fairValue := 1/2, spread := 1/50, timestamp := 0 }

end PM

/-! Helper lemmas. -/

namespace PM

lemma checkLimits_fst_position (cfg : RiskConfig) (s : RiskState) :
    ((checkLimits cfg s).1).position = s.position := by
  simp only [checkLimits]
  split <;> rfl

lemma checkLimits_preserves_halted (cfg : RiskConfig) (s : RiskState)
    (h : s.halted = true) : ((checkLimits cfg s).1).halted = true := by
  simp only [checkLimits]
  split <;> simp [h]

lemma riskStep_preserves_halted (cfg : RiskConfig) (s : RiskState) (op : RiskOp)
    (h : s.halted = true) (h1 : op ≠ RiskOp.opUnhalt)
    (h2 : op ≠ RiskOp.opResetForNewMarket) :
    (riskStep cfg s op).halted = true := by
  cases op with
  | opCheckQuote q => simp [riskStep, checkQuote, h]
  | opProcessFill side price size => exact checkLimits_preserves_halted _ _ h
  | opUpdateUnrealizedPnl fv => simpa [riskStep, updateUnrealizedPnl] using h
  | opUnhalt => exact absurd rfl h1
  | opResetForNewMarket => exact absurd rfl h2

lemma riskRun_preserves_halted (cfg : RiskConfig) :
    ∀ (ops : List RiskOp) (s : RiskState), s.halted = true →
    (∀ op ∈ ops, op ≠ RiskOp.opUnhalt ∧ op ≠ RiskOp.opResetForNewMarket) →
    (riskRun cfg s ops).halted = true := by
  intro ops
  induction ops with
  | nil => intro s h _; exact h
  | cons op rest ih =>
      intro s h hops
      have hop := hops op (List.mem_cons_self op rest)
      exact ih (riskStep cfg s op)
        (riskStep_preserves_halted cfg s op h hop.1 hop.2)
        (fun o ho => hops o (List.mem_cons_of_mem op ho))

lemma updateStrikePrice_locked (st : MMState) (c : ActiveMarketContext)
    (hc : st.current = some c) (hpos : 0 < c.strikePrice) (p : ℚ) :
    updateStrikePrice st p = st := by
  unfold updateStrikePrice
  rw [hc]
  simp [hpos]

lemma foldl_updateStrikePrice_locked (c : ActiveMarketContext) :
    ∀ (ps : List ℚ) (st : MMState), st.current = some c → 0 < c.strikePrice →
    ps.foldl updateStrikePrice st = st := by
  intro ps
  induction ps with
  | nil => intro st _ _; rfl
  | cons p rest ih =>
      intro st hc hpos
      rw [List.foldl_cons, updateStrikePrice_locked st c hc hpos p]
      exact ih st hc hpos

lemma guardStep_inv (g : GuardState) (e : GuardEvent)
    (h : g.running = if g.inFlight then 1 else 0) :
    (guardStep g e).running = if (guardStep g e).inFlight then 1 else 0 := by
  cases e with
  | start mp =>
      simp only [guardStep]
      split
      · exact h
      · rename_i hcond
        have hif : g.inFlight = false := by
          by_contra hn
          exact hcond (Or.inl (by simpa using hn))
        rw [hif] at h
        simp [h]
  | finish =>
      simp only [guardStep]
      split
      · exact h
      · rename_i hrun
        split at h
        · simp [h]
        · exact absurd h hrun

lemma guardRun_inv :
    ∀ (evs : List GuardEvent) (g : GuardState),
    g.running = (if g.inFlight then 1 else 0) →
    (evs.foldl guardStep g).running =
      if (evs.foldl guardStep g).inFlight then 1 else 0 := by
  intro evs
  induction evs with
  | nil => intro g h; exact h
  | cons e rest ih =>
      intro g h
      exact ih (guardStep g e) (guardStep_inv g e h)

lemma isTickMultiple_iff_den_eq_one (price tickSize : ℚ) (ht : tickSize ≠ 0) :
    isTickMultiple price tickSize ↔ (price / tickSize).den = 1 := by
  constructor
  · rintro ⟨n, rfl⟩
    rw [mul_div_assoc, div_self ht, mul_one]
    exact Rat.den_intCast n
  · intro h
    refine ⟨(price / tickSize).num, ?_⟩
    have h2 : ((price / tickSize).num : ℚ) = price / tickSize := by
      rw [← Rat.num_div_den (price / tickSize), h]
      simp
    rw [h2, div_mul_cancel₀ _ ht]

lemma computeQuote_some_spec (cfg : QuotingConfig) (s : QuotingState) (f now : ℚ)
    (s2 : QuotingState) (q : Quote) (em : Bool)
    (h : computeQuote cfg s f now = (s2, some q, em)) :
    q.bidPrice = clampPrice (f - computeSpread cfg s / 2 +
      -s.position.netDelta * cfg.INVENTORY_SKEW_FACTOR) s.tickSize ∧
    q.askPrice = clampPrice (f + computeSpread cfg s / 2 +
      -s.position.netDelta * cfg.INVENTORY_SKEW_FACTOR) s.tickSize ∧
    q.bidPrice < q.askPrice ∧
    s2 = { s with lastQuote := some q } ∧
    em = shouldRequote cfg s q := by
  simp only [computeQuote] at h
  split at h
  · simp [Prod.ext_iff] at h
  · split at h
    · simp [Prod.ext_iff] at h
    · rename_i hlt
      injection h with h1 h2
      injection h2 with h2a h2b
      injection h2a with hq
      subst hq
      exact ⟨rfl, rfl, lt_of_not_ge hlt, h1.symm, h2b.symm⟩

lemma clampPrice_eq_tick_of (p t : ℚ) (h : 1 - t < t) : clampPrice p t = t := by
  unfold clampPrice
  exact max_eq_left (le_trans (min_le_left _ _) (le_of_lt h))

lemma tick_le_clampPrice (p t : ℚ) : t ≤ clampPrice p t := le_max_left _ _

lemma clampPrice_le_one_sub (p t : ℚ) (h : t ≤ 1 - t) : clampPrice p t ≤ 1 - t := by
  unfold clampPrice
  exact max_le h (min_le_left _ _)

lemma clampPrice_isTickMultiple (p t : ℚ) (m : ℤ) (hm : 0 < m)
    (ht : t = 1 / (m : ℚ)) : isTickMultiple (clampPrice p t) t := by
  have hm0 : (m : ℚ) ≠ 0 := Int.cast_ne_zero.mpr (by omega)
  have hmul : isTickMultiple (1 - t) t := by
    refine ⟨m - 1, ?_⟩
    rw [ht]
    push_cast
    field_simp
  unfold clampPrice
  rcases max_choice t (min (1 - t) (roundToTick p t)) with h | h <;> rw [h]
  · exact ⟨1, by simp⟩
  · rcases min_choice (1 - t) (roundToTick p t) with h2 | h2 <;> rw [h2]
    · exact hmul
    · exact ⟨jsRound (p / t), rfl⟩

lemma asPoly_strictMono : StrictMono asPoly := by
  have heq : asPoly = fun x : ℝ =>
      0.254829592 * x + (-0.284496736) * x ^ 2 + 1.421413741 * x ^ 3 +
        (-1.453152027) * x ^ 4 + 1.061405429 * x ^ 5 := by
    funext x
    simp only [asPoly]
    ring
  rw [heq]
  apply strictMono_of_hasDerivAt_pos
    (fun x => ((((((hasDerivAt_id x).const_mul (0.254829592 : ℝ)).add
      ((hasDerivAt_pow 2 x).const_mul (-0.284496736 : ℝ))).add
      ((hasDerivAt_pow 3 x).const_mul (1.421413741 : ℝ))).add
      ((hasDerivAt_pow 4 x).const_mul (-1.453152027 : ℝ))).add
      ((hasDerivAt_pow 5 x).const_mul (1.061405429 : ℝ))))
  intro x
  push_cast
  nlinarith [sq_nonneg (10614054290 * x ^ 2 - 5812608108 * x),
    sq_nonneg (56735362675968653676 * x - 6039327602463594880), sq_nonneg x]

lemma asPoly_nonneg {t : ℝ} (ht : 0 ≤ t) : 0 ≤ asPoly t := by
  have h0 : asPoly 0 = 0 := by simp [asPoly]
  rw [← h0]
  exact asPoly_strictMono.monotone ht

lemma asPoly_le_asPoly {a b : ℝ} (h : a ≤ b) : asPoly a ≤ asPoly b :=
  asPoly_strictMono.monotone h

lemma normalCDF_mono {x1 x2 : ℝ} (h0 : 0 ≤ x1) (h12 : x1 ≤ x2) :
    normalCDF x1 ≤ normalCDF x2 := by
  have h02 : 0 ≤ x2 := h0.trans h12
  simp only [normalCDF]
  rw [if_neg (not_lt.mpr h0), if_neg (not_lt.mpr h02), abs_of_nonneg h0,
    abs_of_nonneg h02]
  have hsqrt : 0 < Real.sqrt 2 := Real.sqrt_pos.mpr (by norm_num)
  set z1 := x1 / Real.sqrt 2 with hz1
  set z2 := x2 / Real.sqrt 2 with hz2
  have hz1n : 0 ≤ z1 := div_nonneg h0 hsqrt.le
  have hz12 : z1 ≤ z2 := (div_le_div_iff_of_pos_right hsqrt).mpr h12
  have hz2n : 0 ≤ z2 := hz1n.trans hz12
  have hp : (0:ℝ) < 0.3275911 := by norm_num
  have hden1 : (0:ℝ) < 1 + 0.3275911 * z1 := by nlinarith
  have hden2 : (0:ℝ) < 1 + 0.3275911 * z2 := by nlinarith
  have ht21 : 1 / (1 + 0.3275911 * z2) ≤ 1 / (1 + 0.3275911 * z1) :=
    one_div_le_one_div_of_le hden1 (by nlinarith)
  have ht2n : 0 ≤ 1 / (1 + 0.3275911 * z2) := by positivity
  have hP21 : asPoly (1 / (1 + 0.3275911 * z2)) ≤ asPoly (1 / (1 + 0.3275911 * z1)) :=
    asPoly_le_asPoly ht21
  have hP2n : 0 ≤ asPoly (1 / (1 + 0.3275911 * z2)) := asPoly_nonneg ht2n
  have hexp : Real.exp (-z2 * z2) ≤ Real.exp (-z1 * z1) := by
    apply Real.exp_le_exp.mpr
    nlinarith
  have hexpn : 0 ≤ Real.exp (-z2 * z2) := (Real.exp_pos _).le
  have hmul : asPoly (1 / (1 + 0.3275911 * z2)) * Real.exp (-z2 * z2) ≤
      asPoly (1 / (1 + 0.3275911 * z1)) * Real.exp (-z1 * z1) :=
    mul_le_mul hP21 hexp hexpn (hP2n.trans hP21)
  nlinarith [hmul]

end PM

/-! Claim theorems. -/

namespace PM

/-- C1 (amended): once the RiskAgent's halted flag is set, every subsequent
checkQuote returns HALT, no matter which processFill, updateUnrealizedPnl or
checkQuote calls happen in between, and the flag stays set under every
public operation except the explicit unhalt call and the market-rotation
reset (resetForNewMarket), either of which clears it. -/
theorem pm_C1_halt_sticky (cfg : RiskConfig) (s : RiskState) (ops : List RiskOp)
    (h : s.halted = true)
    (hops : ∀ op ∈ ops, op ≠ RiskOp.opUnhalt ∧ op ≠ RiskOp.opResetForNewMarket) :
    (riskRun cfg s ops).halted = true ∧
    (∀ q : Quote, (checkQuote cfg q (riskRun cfg s ops)).2.1 = RiskAction.HALT) ∧
    (unhalt (riskRun cfg s ops)).halted = false := by
  have hh := riskRun_preserves_halted cfg ops s h hops
  refine ⟨hh, ?_, rfl⟩
  intro q
  simp [checkQuote, hh]

/-- C1 witness: the sticky-halt theorem applied to a concrete halted state
and a concrete operation sequence containing a fill, a PnL refresh and a
quote check. -/
theorem pm_C1_halt_sticky_witness :
    haltedRiskState.halted = true ∧
    ((riskRun defaultRiskConfig haltedRiskState
        [RiskOp.opProcessFill "SELL" (1/10) 100,
         RiskOp.opUpdateUnrealizedPnl (1/2),
         RiskOp.opCheckQuote sampleQuote]).halted = true ∧
     (∀ q : Quote,
        (checkQuote defaultRiskConfig q
          (riskRun defaultRiskConfig haltedRiskState
            [RiskOp.opProcessFill "SELL" (1/10) 100,
             RiskOp.opUpdateUnrealizedPnl (1/2),
             RiskOp.opCheckQuote sampleQuote])).2.1 = RiskAction.HALT) ∧
     (unhalt (riskRun defaultRiskConfig haltedRiskState
        [RiskOp.opProcessFill "SELL" (1/10) 100,
         RiskOp.opUpdateUnrealizedPnl (1/2),
         RiskOp.opCheckQuote sampleQuote])).halted = false) :=
  ⟨rfl, pm_C1_halt_sticky defaultRiskConfig haltedRiskState _ rfl (by simp)⟩

/-- C1 counterexample: the claim says the halted flag becomes false only
through an explicit unhalt call, but resetForNewMarket (run on every market
rotation) also clears it. -/
theorem pm_C1_counterexample :
    haltedRiskState.halted = true ∧
    (riskStep defaultRiskConfig haltedRiskState RiskOp.opResetForNewMarket).halted = false ∧
    RiskOp.opResetForNewMarket ≠ RiskOp.opUnhalt := by
  refine ⟨rfl, rfl, by simp⟩

/-- C4: for a quote checked while not halted (every quote the orchestrator
passes in has fairValue strictly inside (0,1), hence nonzero, so the
JavaScript fallback of fairValue || 0.5 never engages), checkQuote follows
exactly the claimed precedence: total-PnL breach sets halted, emits a halt
signal and returns HALT; otherwise notional breach, then position breach,
give REDUCE_ONLY; otherwise ALLOW. -/
theorem pm_C4_checkQuote_precedence (cfg : RiskConfig) (s : RiskState) (q : Quote)
    (hh : s.halted = false) (hf : q.fairValue ≠ 0) :
    checkQuote cfg q s =
      if s.position.realizedPnl + s.position.unrealizedPnl < -cfg.MAX_LOSS then
        ({ s with halted := true }, RiskAction.HALT, true)
      else if |s.position.netDelta| * q.fairValue > cfg.MAX_NOTIONAL then
        (s, RiskAction.REDUCE_ONLY, false)
      else if |s.position.netDelta| > cfg.MAX_POSITION then
        (s, RiskAction.REDUCE_ONLY, false)
      else (s, RiskAction.ALLOW, false) := by
  unfold checkQuote jsOr
  simp [hh, hf]

/-- C4 witness: the precedence theorem applied to the initial risk state and
the sample quote. -/
theorem pm_C4_checkQuote_precedence_witness :
    initialRiskState.halted = false ∧ sampleQuote.fairValue ≠ 0 ∧
    checkQuote defaultRiskConfig sampleQuote initialRiskState =
      (if initialRiskState.position.realizedPnl + initialRiskState.position.unrealizedPnl <
          -defaultRiskConfig.MAX_LOSS then
        ({ initialRiskState with halted := true }, RiskAction.HALT, true)
      else if |initialRiskState.position.netDelta| * sampleQuote.fairValue >
          defaultRiskConfig.MAX_NOTIONAL then
        (initialRiskState, RiskAction.REDUCE_ONLY, false)
      else if |initialRiskState.position.netDelta| > defaultRiskConfig.MAX_POSITION then
        (initialRiskState, RiskAction.REDUCE_ONLY, false)
      else (initialRiskState, RiskAction.ALLOW, false)) :=
  ⟨rfl, by norm_num [sampleQuote],
   pm_C4_checkQuote_precedence defaultRiskConfig initialRiskState sampleQuote rfl
     (by norm_num [sampleQuote])⟩

/-- C6: processFill arithmetic. A BUY fill of size s at price p grows net
shares by s, moves avgEntryPrice to the volume-weighted average and leaves
realizedPnl alone; a SELL fill realizes (p - avgEntryPrice) x s, shrinks
net shares by s and leaves avgEntryPrice alone; after either fill netDelta
equals the signed net share count. -/
theorem pm_C6_processFill (cfg : RiskConfig) (s : RiskState) (price size : ℚ)
    (_hnz : s.position.yesShares + size ≠ 0) :
    ((processFill cfg "BUY" price size s).1.position.yesShares =
        s.position.yesShares + size ∧
     (processFill cfg "BUY" price size s).1.position.avgEntryPrice =
        (s.position.avgEntryPrice * s.position.yesShares + price * size) /
          (s.position.yesShares + size) ∧
     (processFill cfg "BUY" price size s).1.position.netDelta =
        (processFill cfg "BUY" price size s).1.position.yesShares ∧
     (processFill cfg "BUY" price size s).1.position.realizedPnl =
        s.position.realizedPnl) ∧
    ((processFill cfg "SELL" price size s).1.position.yesShares =
        s.position.yesShares - size ∧
     (processFill cfg "SELL" price size s).1.position.realizedPnl =
        s.position.realizedPnl + (price - s.position.avgEntryPrice) * size ∧
     (processFill cfg "SELL" price size s).1.position.avgEntryPrice =
        s.position.avgEntryPrice ∧
     (processFill cfg "SELL" price size s).1.position.netDelta =
        (processFill cfg "SELL" price size s).1.position.yesShares) := by
  unfold processFill
  rw [checkLimits_fst_position, checkLimits_fst_position]
  simp

/-- C6 witness: the fill-arithmetic theorem at the claim's scenario start
(flat position, BUY of 10 at 0.45), plus the full two-fill scenario checked
by evaluation: after the BUY, avgEntryPrice is 0.45 and netDelta 10; after
the subsequent SELL of 4 at 0.50, realizedPnl is 0.20, netDelta 6 and
avgEntryPrice still 0.45. -/
theorem pm_C6_processFill_witness :
    (initialRiskState.position.yesShares + 10 ≠ 0) ∧
    ((processFill defaultRiskConfig "BUY" (45/100) 10 initialRiskState).1.position.yesShares =
        initialRiskState.position.yesShares + 10 ∧
     (processFill defaultRiskConfig "BUY" (45/100) 10 initialRiskState).1.position.avgEntryPrice =
        (initialRiskState.position.avgEntryPrice * initialRiskState.position.yesShares +
            (45/100) * 10) / (initialRiskState.position.yesShares + 10) ∧
     (processFill defaultRiskConfig "BUY" (45/100) 10 initialRiskState).1.position.netDelta =
        (processFill defaultRiskConfig "BUY" (45/100) 10 initialRiskState).1.position.yesShares ∧
     (processFill defaultRiskConfig "BUY" (45/100) 10 initialRiskState).1.position.realizedPnl =
        initialRiskState.position.realizedPnl) ∧
    ((processFill defaultRiskConfig "BUY" (45/100) 10 initialRiskState).1.position.avgEntryPrice =
        45/100 ∧
     (processFill defaultRiskConfig "BUY" (45/100) 10 initialRiskState).1.position.netDelta = 10) ∧
    (((processFill defaultRiskConfig "SELL" (50/100) 4
        (processFill defaultRiskConfig "BUY" (45/100) 10 initialRiskState).1).1.position.realizedPnl
        = 20/100) ∧
     ((processFill defaultRiskConfig "SELL" (50/100) 4
        (processFill defaultRiskConfig "BUY" (45/100) 10 initialRiskState).1).1.position.netDelta
        = 6) ∧
     ((processFill defaultRiskConfig "SELL" (50/100) 4
        (processFill defaultRiskConfig "BUY" (45/100) 10 initialRiskState).1).1.position.avgEntryPrice
        = 45/100)) :=
  ⟨by norm_num [initialRiskState, initialPosition],
   (pm_C6_processFill defaultRiskConfig initialRiskState (45/100) 10
     (by norm_num [initialRiskState, initialPosition])).1,
   ⟨by simp [processFill, checkLimits, initialRiskState, initialPosition, defaultRiskConfig]
       <;> norm_num,
    by simp [processFill, checkLimits, initialRiskState, initialPosition, defaultRiskConfig]
       <;> norm_num⟩,
   ⟨by simp [processFill, checkLimits, initialRiskState, initialPosition, defaultRiskConfig]
       <;> norm_num,
    by simp [processFill, checkLimits, initialRiskState, initialPosition, defaultRiskConfig]
       <;> norm_num,
    by simp [processFill, checkLimits, initialRiskState, initialPosition, defaultRiskConfig]
       <;> norm_num⟩⟩

/-- C2: for every rotation of the running program the newly assigned
ActiveMarketContext has strike 0 (the initialBtcPrice fallback in
discoverAndSwitch never fires, since setInitialBtcPrice has no call site and
initialBtcPrice therefore stays 0); the first positive reference-price
observation received while a window is active and unlocked locks the strike,
and every later updateStrikePrice call leaves it unchanged for the lifetime
of the window. -/
theorem pm_C2_strike_lock :
    (∀ (st : MMState) (m : MarketInfo) (st2 : MMState) (ev : SwitchEvent),
        st.initialBtcPrice = 0 →
        discoverAndSwitch st (some m) = (st2, some ev) →
        ev.current.strikePrice = 0 ∧ st2.current = some ev.current) ∧
    (∀ (st : MMState) (c : ActiveMarketContext) (p : ℚ) (ps : List ℚ),
        st.current = some c → c.strikePrice = 0 → 0 < p →
        (ps.foldl updateStrikePrice (updateStrikePrice st p)).current =
          some { c with strikePrice := p }) := by
  constructor
  · intro st m st2 ev h0 heq
    simp only [discoverAndSwitch] at heq
    by_cases hsc : sameCondition st.current m
    · rw [if_pos hsc] at heq
      simp at heq
    · rw [if_neg hsc] at heq
      injection heq with h1 h2
      injection h2 with h3
      subst h1
      subst h3
      refine ⟨?_, rfl⟩
      simp [h0]
  · intro st c p ps hc hzero hp
    have h1 : updateStrikePrice st p =
        { st with current := some { c with strikePrice := p } } := by
      unfold updateStrikePrice
      rw [hc]
      simp [hzero]
    rw [h1]
    rw [foldl_updateStrikePrice_locked { c with strikePrice := p } ps _ rfl hp]

/-- C2 witness: the strike-lock theorem applied to a concrete rotation from
the empty state and to a concrete first observation at 60000 followed by two
further observations. -/
theorem pm_C2_strike_lock_witness :
    (initialMMState.initialBtcPrice = 0 ∧
     ({ prev := none, current := sampleContext } : SwitchEvent).current.strikePrice = 0 ∧
     ({ current := some sampleContext, initialBtcPrice := 0 } : MMState).current =
        some ({ prev := none, current := sampleContext } : SwitchEvent).current) ∧
    ((0:ℚ) < 60000 ∧
     (([(61000:ℚ), 59000]).foldl updateStrikePrice
        (updateStrikePrice { current := some sampleContext, initialBtcPrice := 0 } 60000)).current =
       some { sampleContext with strikePrice := 60000 }) :=
  ⟨⟨rfl,
    (pm_C2_strike_lock.1 initialMMState sampleMarketInfo
      { current := some sampleContext, initialBtcPrice := 0 }
      { prev := none, current := sampleContext } rfl rfl).1,
    (pm_C2_strike_lock.1 initialMMState sampleMarketInfo
      { current := some sampleContext, initialBtcPrice := 0 }
      { prev := none, current := sampleContext } rfl rfl).2⟩,
   ⟨by norm_num,
    pm_C2_strike_lock.2 { current := some sampleContext, initialBtcPrice := 0 }
      sampleContext 60000 [61000, 59000] rfl rfl (by norm_num)⟩⟩

/-- C10: handleFill never drives a remaining size negative; a fill at least
as large as the remaining size clamps it to zero and clears that side's
order identity; and a fill whose order id matches neither resting order
leaves the ActiveOrderSet unchanged. -/
theorem pm_C10_handleFill (st : ExecState) (orderId : String) (amt : ℚ)
    (hb : 0 ≤ st.active.bidSize) (ha : 0 ≤ st.active.askSize) :
    (0 ≤ (handleFill st orderId amt).active.bidSize ∧
     0 ≤ (handleFill st orderId amt).active.askSize) ∧
    (st.active.bidOrderId = some orderId → st.active.bidSize ≤ amt →
      (handleFill st orderId amt).active.bidSize = 0 ∧
      (handleFill st orderId amt).active.bidOrderId = none) ∧
    (st.active.bidOrderId ≠ some orderId → st.active.askOrderId = some orderId →
      st.active.askSize ≤ amt →
      (handleFill st orderId amt).active.askSize = 0 ∧
      (handleFill st orderId amt).active.askOrderId = none) ∧
    (st.active.bidOrderId ≠ some orderId → st.active.askOrderId ≠ some orderId →
      (handleFill st orderId amt).active = st.active) := by
  refine ⟨?_, ?_, ?_, ?_⟩
  · simp only [handleFill]
    split_ifs <;> simp_all [le_max_left]
  · intro hid hle
    have hmax : max 0 (st.active.bidSize - amt) = 0 :=
      max_eq_left (by linarith)
    simp [handleFill, hid, hmax]
  · intro hbid hid hle
    have hmax : max 0 (st.active.askSize - amt) = 0 :=
      max_eq_left (by linarith)
    simp [handleFill, hbid, hid, hmax]
  · intro hbid hask
    simp [handleFill, hbid, hask]

/-- C10 witness: the handleFill theorem applied to a concrete ActiveOrderSet
holding a resting bid b1 of size 50 and ask a1 of size 50, with a fill of 60
against b1. -/
theorem pm_C10_handleFill_witness :
    ((0:ℚ) ≤ 50 ∧ (0:ℚ) ≤ 50) ∧
    ((0 ≤ (handleFill
        { market := none
          active := { bidOrderId := some "b1", askOrderId := some "a1"
                      bidPrice := 2/5, askPrice := 11/25, bidSize := 50, askSize := 50 }
          cancelInFlight := false } "b1" 60).active.bidSize ∧
      0 ≤ (handleFill
        { market := none
          active := { bidOrderId := some "b1", askOrderId := some "a1"
                      bidPrice := 2/5, askPrice := 11/25, bidSize := 50, askSize := 50 }
          cancelInFlight := false } "b1" 60).active.askSize) ∧
     ((handleFill
        { market := none
          active := { bidOrderId := some "b1", askOrderId := some "a1"
                      bidPrice := 2/5, askPrice := 11/25, bidSize := 50, askSize := 50 }
          cancelInFlight := false } "b1" 60).active.bidSize = 0 ∧
      (handleFill
        { market := none
          active := { bidOrderId := some "b1", askOrderId := some "a1"
                      bidPrice := 2/5, askPrice := 11/25, bidSize := 50, askSize := 50 }
          cancelInFlight := false } "b1" 60).active.bidOrderId = none)) := by
  refine ⟨⟨by norm_num, by norm_num⟩, ?_, ?_⟩
  · exact (pm_C10_handleFill _ "b1" 60 (by norm_num) (by norm_num)).1
  · exact (pm_C10_handleFill _ "b1" 60 (by norm_num) (by norm_num)).2.1 rfl (by norm_num)

/-- C3 counterexample: the claim counts an exception raised during order
submission as a failing invocation and requires an error signal plus an
unchanged ActiveOrderSet, but in the code any submission exception is caught
inside submitOrdersBatch and submitSingle, so with the batch endpoint and
both fallback submissions raising, the cycle still completes (cycle_complete
is emitted, no error signal) and the ActiveOrderSet is overwritten with null
order identifiers and the new quote's prices and sizes. -/
theorem pm_C3_counterexample :
    (cancelAndReplace envSubmitThrow sampleExecState sampleQuote).2.1 =
      CycleOutcome.completed none none ∧
    (cancelAndReplace envSubmitThrow sampleExecState sampleQuote).1.active ≠
      sampleExecState.active := by
  constructor
  · rfl
  · intro h
    have hbid := congrArg ActiveOrders.bidOrderId h
    simp [cancelAndReplace, envSubmitThrow, sampleExecState, sampleExecMarket,
      submitOrdersBatch, submitSingle, cancelExisting, sampleActiveOrders] at hbid

/-- C3 (amended): exceptions propagate out of cancelAndReplace's try block
exactly from the signing phase; for every such failing invocation the
controller emits a cycle_error signal and the ActiveOrderSet (indeed the
whole agent state) after the failed cycle equals the one before it, with the
in-flight guard released. Exceptions inside cancel or submission are caught
internally and the cycle completes, overwriting the ActiveOrderSet with null
identifiers for the failed sides. -/
theorem pm_C3_cycle_error_atomic (env : CycleEnv) (st : ExecState) (q : Quote)
    (hguard : st.cancelInFlight = false) (hm : st.market ≠ none)
    (hsign : env.signBid = Except.error () ∨ env.signAsk = Except.error ()) :
    (cancelAndReplace env st q).2.1 = CycleOutcome.errored ∧
    (cancelAndReplace env st q).1.active = st.active ∧
    (cancelAndReplace env st q).1 = st := by
  have hcond : ¬((st.cancelInFlight = true) ∨ st.market = none) := by
    rintro (h | h)
    · rw [hguard] at h
      exact Bool.false_ne_true h
    · exact hm h
  have hst : { st with cancelInFlight := false } = st := by
    cases st
    simp_all
  unfold cancelAndReplace
  rw [if_neg hcond]
  rcases hsign with h | h
  · rw [h]
    cases env.signAsk <;> simp [hst]
  · rw [h]
    cases env.signBid <;> simp [hst]

/-- C3 witness: the amended atomicity theorem applied to a concrete idle
state and an environment whose bid-signing call raises. -/
theorem pm_C3_cycle_error_atomic_witness :
    (sampleExecState.cancelInFlight = false ∧ sampleExecState.market ≠ none ∧
      (envSignThrow.signBid = Except.error () ∨ envSignThrow.signAsk = Except.error ())) ∧
    ((cancelAndReplace envSignThrow sampleExecState sampleQuote).2.1 =
        CycleOutcome.errored ∧
      (cancelAndReplace envSignThrow sampleExecState sampleQuote).1.active =
        sampleExecState.active ∧
      (cancelAndReplace envSignThrow sampleExecState sampleQuote).1 = sampleExecState) :=
  ⟨⟨rfl, by simp [sampleExecState], Or.inl rfl⟩,
   pm_C3_cycle_error_atomic envSignThrow sampleExecState sampleQuote rfl
     (by simp [sampleExecState]) (Or.inl rfl)⟩

/-- C8: a cancelAndReplace request arriving while the in-flight guard is set
is dropped, not queued: it returns zero timings and leaves the entire agent
state untouched; the guard is released on every exit path of a cycle that
did run (success and failure alike); and in the scheduler-level guard
protocol at most one cycle body is ever in progress, the running count
always matching the guard bit. -/
theorem pm_C8_in_flight_guard :
    (∀ (env : CycleEnv) (st : ExecState) (q : Quote), st.cancelInFlight = true →
        cancelAndReplace env st q = (st, CycleOutcome.dropped, zeroTimings)) ∧
    (∀ (env : CycleEnv) (st : ExecState) (q : Quote), st.cancelInFlight = false →
        (cancelAndReplace env st q).1.cancelInFlight = false) ∧
    (∀ evs : List GuardEvent,
        (evs.foldl guardStep initialGuardState).running ≤ 1 ∧
        (evs.foldl guardStep initialGuardState).running =
          (if (evs.foldl guardStep initialGuardState).inFlight then 1 else 0)) ∧
    (∀ g : GuardState, g.running ≠ 0 →
        (guardStep g GuardEvent.finish).inFlight = false) := by
  refine ⟨?_, ?_, ?_, ?_⟩
  · intro env st q h
    unfold cancelAndReplace
    rw [if_pos (Or.inl h)]
  · intro env st q h
    unfold cancelAndReplace
    split
    · exact h
    · cases env.signBid <;> cases env.signAsk <;> rfl
  · intro evs
    have hinv := guardRun_inv evs initialGuardState rfl
    refine ⟨?_, hinv⟩
    rw [hinv]
    split <;> decide
  · intro g hg
    simp only [guardStep]
    rw [if_neg hg]

/-- C8 witness: the guard theorem applied to a concrete busy state (request
dropped with zero timings) and a concrete event trace with an extra start
arriving while a cycle runs. -/
theorem pm_C8_in_flight_guard_witness :
    (({ market := some sampleExecMarket, active := sampleActiveOrders
        cancelInFlight := true } : ExecState).cancelInFlight = true) ∧
    cancelAndReplace envSubmitThrow
      { market := some sampleExecMarket, active := sampleActiveOrders
        cancelInFlight := true } sampleQuote =
      ({ market := some sampleExecMarket, active := sampleActiveOrders
         cancelInFlight := true }, CycleOutcome.dropped, zeroTimings) ∧
    ([GuardEvent.start true, GuardEvent.start true,
      GuardEvent.finish].foldl guardStep initialGuardState).running ≤ 1 :=
  ⟨rfl,
   pm_C8_in_flight_guard.1 envSubmitThrow
     { market := some sampleExecMarket, active := sampleActiveOrders
       cancelInFlight := true } sampleQuote rfl,
   (pm_C8_in_flight_guard.2.2.1
     [GuardEvent.start true, GuardEvent.start true, GuardEvent.finish]).1⟩

/-- C5 counterexample: with tick size 0.3 and fair value 0.75 (flat book,
zero volatility, default spreads), computeQuote returns a quote whose ask is
clamped to 1 - tick = 0.7, which is not an exact multiple of 0.3 — so the
claim's quantification over every tick size t > 0 fails. -/
theorem pm_C5_counterexample :
    ((computeQuote defaultQuotingConfig coarseTickState (3/4) 0).2.1.map
        Quote.askPrice = some (7/10)) ∧
    ¬ isTickMultiple (7/10) (3/10) ∧ (0:ℚ) < 3/10 := by
  refine ⟨?_, ?_, by norm_num⟩
  · norm_num [computeQuote, computeSpread, clampPrice, roundToTick, jsRound,
      shouldRequote, coarseTickState, defaultQuotingConfig, initialPosition]
  · rintro ⟨n, hn⟩
    have h7 : (7 : ℚ) = (n : ℚ) * 3 := by linarith
    have h7z : (7 : ℤ) = n * 3 := by exact_mod_cast h7
    omega

/-- C5 (amended): for every tick size t > 0 whose reciprocal is an integer
(true of the exchange tick sizes 0.01 and 0.001) and every fair value,
computeQuote either returns none or returns a quote whose bid and ask are
exact multiples of t, lie within [t, 1 - t] and satisfy bid < ask strictly;
for fair values outside the open interval (0,1) it always returns none. For
general t the ask (or bid) can be clamped to 1 - t, which need not be a
multiple of t. -/
theorem pm_C5_computeQuote_ticks (cfg : QuotingConfig) (s : QuotingState) (f now : ℚ)
    (hm : ∃ m : ℤ, 0 < m ∧ s.tickSize = 1 / (m : ℚ)) :
    ((f ≤ 0 ∨ f ≥ 1) → (computeQuote cfg s f now).2.1 = none) ∧
    (∀ (s2 : QuotingState) (q : Quote) (em : Bool),
        computeQuote cfg s f now = (s2, some q, em) →
        isTickMultiple q.bidPrice s.tickSize ∧
        isTickMultiple q.askPrice s.tickSize ∧
        s.tickSize ≤ q.bidPrice ∧ q.bidPrice < q.askPrice ∧
        q.askPrice ≤ 1 - s.tickSize) := by
  obtain ⟨m, hm0, ht⟩ := hm
  constructor
  · intro hf
    simp only [computeQuote]
    rw [if_pos hf]
  · intro s2 q em h
    obtain ⟨hbid, hask, hlt, _, _⟩ := computeQuote_some_spec cfg s f now s2 q em h
    have htle : s.tickSize ≤ 1 - s.tickSize := by
      by_contra hc
      push_neg at hc
      rw [hbid, hask, clampPrice_eq_tick_of _ _ hc, clampPrice_eq_tick_of _ _ hc] at hlt
      exact lt_irrefl _ hlt
    refine ⟨?_, ?_, ?_, hlt, ?_⟩
    · rw [hbid]
      exact clampPrice_isTickMultiple _ _ m hm0 ht
    · rw [hask]
      exact clampPrice_isTickMultiple _ _ m hm0 ht
    · rw [hbid]
      exact tick_le_clampPrice _ _
    · rw [hask]
      exact clampPrice_le_one_sub _ _ htle

/-- C5 witness: the amended theorem applied with the default 0.001 tick,
once at fair value 2 (rejected as out of range) and once at fair value 0.5,
where the concrete quote bid 0.49 / ask 0.51 is produced. -/
theorem pm_C5_computeQuote_ticks_witness :
    (∃ m : ℤ, 0 < m ∧ initialQuotingState.tickSize = 1 / (m : ℚ)) ∧
    (computeQuote defaultQuotingConfig initialQuotingState 2 0).2.1 = none ∧
    (isTickMultiple unitTickQuote.bidPrice initialQuotingState.tickSize ∧
     isTickMultiple unitTickQuote.askPrice initialQuotingState.tickSize ∧
     initialQuotingState.tickSize ≤ unitTickQuote.bidPrice ∧
     unitTickQuote.bidPrice < unitTickQuote.askPrice ∧
     unitTickQuote.askPrice ≤ 1 - initialQuotingState.tickSize) := by
  have hmex : ∃ m : ℤ, 0 < m ∧ initialQuotingState.tickSize = 1 / (m : ℚ) :=
    ⟨1000, by norm_num, by norm_num [initialQuotingState]⟩
  have hQ : computeQuote defaultQuotingConfig initialQuotingState (1/2) 0 =
      ({ initialQuotingState with lastQuote := some unitTickQuote },
        some unitTickQuote, true) := by
    norm_num [computeQuote, computeSpread, clampPrice, roundToTick, jsRound,
      shouldRequote, initialQuotingState, defaultQuotingConfig, initialPosition,
      unitTickQuote]
  refine ⟨hmex, ?_, ?_⟩
  · exact (pm_C5_computeQuote_ticks defaultQuotingConfig initialQuotingState 2 0 hmex).1
      (Or.inr (by norm_num))
  · exact (pm_C5_computeQuote_ticks defaultQuotingConfig initialQuotingState (1/2) 0
      hmex).2 _ unitTickQuote true hQ

/-- C7: the first computed quote on a market is always requote-worthy; a
later computed quote is requote-worthy if and only if the bid's or the ask's
relative move against the stored last quote is at least
REQUOTE_THRESHOLD_BPS; and every computed quote, emitted or not, becomes the
stored last quote used as the next baseline. -/
theorem pm_C7_requote_gate (cfg : QuotingConfig) (s : QuotingState) (f now : ℚ) :
    (∀ (s2 : QuotingState) (q : Quote) (em : Bool),
        computeQuote cfg s f now = (s2, some q, em) → s2.lastQuote = some q) ∧
    (s.lastQuote = none →
      ∀ (s2 : QuotingState) (q : Quote) (em : Bool),
        computeQuote cfg s f now = (s2, some q, em) → em = true) ∧
    (∀ lq, s.lastQuote = some lq →
      ∀ (s2 : QuotingState) (q : Quote) (em : Bool),
        computeQuote cfg s f now = (s2, some q, em) →
        (em = true ↔
          (|q.bidPrice - lq.bidPrice| / lq.bidPrice * 10000 ≥
              cfg.REQUOTE_THRESHOLD_BPS ∨
           |q.askPrice - lq.askPrice| / lq.askPrice * 10000 ≥
              cfg.REQUOTE_THRESHOLD_BPS))) := by
  refine ⟨?_, ?_, ?_⟩
  · intro s2 q em h
    obtain ⟨_, _, _, hs2, _⟩ := computeQuote_some_spec cfg s f now s2 q em h
    rw [hs2]
  · intro hnone s2 q em h
    obtain ⟨_, _, _, _, hem⟩ := computeQuote_some_spec cfg s f now s2 q em h
    rw [hem]
    simp [shouldRequote, hnone]
  · intro lq hlq s2 q em h
    obtain ⟨_, _, _, _, hem⟩ := computeQuote_some_spec cfg s f now s2 q em h
    subst hem
    simp [shouldRequote, hlq]

/-- C7 witness: the requote-gate theorem applied to the initial (empty
last-quote) state, where the concrete first quote bid 0.49 / ask 0.51 is
emitted and stored as the new baseline. -/
theorem pm_C7_requote_gate_witness :
    initialQuotingState.lastQuote = none ∧
    computeQuote defaultQuotingConfig initialQuotingState (1/2) 0 =
      ({ initialQuotingState with lastQuote := some unitTickQuote },
        some unitTickQuote, true) ∧
    (true : Bool) = true ∧
    ({ initialQuotingState with lastQuote := some unitTickQuote } :
        QuotingState).lastQuote = some unitTickQuote := by
  have hQ : computeQuote defaultQuotingConfig initialQuotingState (1/2) 0 =
      ({ initialQuotingState with lastQuote := some unitTickQuote },
        some unitTickQuote, true) := by
    norm_num [computeQuote, computeSpread, clampPrice, roundToTick, jsRound,
      shouldRequote, initialQuotingState, defaultQuotingConfig, initialPosition,
      unitTickQuote]
  refine ⟨rfl, hQ, ?_, ?_⟩
  · exact (pm_C7_requote_gate defaultQuotingConfig initialQuotingState (1/2) 0).2.1
      rfl _ unitTickQuote true hQ
  · exact (pm_C7_requote_gate defaultQuotingConfig initialQuotingState (1/2) 0).1
      _ unitTickQuote true hQ

/-- C9: for every strike K > 0, volatility v > 0 and time-to-expiry, the
fair value computed by Btc5MinStrategy.computeFairValue is monotone
non-decreasing in the spot price over spots strictly above K: the
normal-CDF approximation of log(spot/strike)/(v sqrt T), clamped to
[0.01, 0.99], never decreases when the spot increases. -/
theorem pm_C9_fairValue_monotone (K v T S1 S2 : ℝ) (hK : 0 < K) (hv : 0 < v)
    (h1 : K < S1) (h12 : S1 ≤ S2) :
    computeFairValue S1 K v T ≤ computeFairValue S2 K v T := by
  have hS1 : 0 < S1 := hK.trans h1
  have hS2 : 0 < S2 := lt_of_lt_of_le hS1 h12
  simp only [computeFairValue]
  rw [if_neg (by push_neg; exact ⟨hS1, hK, hv⟩), if_neg (by push_neg; exact ⟨hS2, hK, hv⟩)]
  have hT2 : (0:ℝ) < max (T / 1000 / (365.25 * 24 * 3600)) 1e-10 :=
    lt_of_lt_of_le (by norm_num) (le_max_right _ _)
  have hsq : 0 < Real.sqrt (max (T / 1000 / (365.25 * 24 * 3600)) 1e-10) :=
    Real.sqrt_pos.mpr hT2
  have hden : 0 < v * Real.sqrt (max (T / 1000 / (365.25 * 24 * 3600)) 1e-10) :=
    mul_pos hv hsq
  have hlog1 : 0 ≤ Real.log (S1 / K) :=
    Real.log_nonneg (by rw [le_div_iff₀ hK]; linarith)
  have hlog12 : Real.log (S1 / K) ≤ Real.log (S2 / K) :=
    Real.log_le_log (div_pos hS1 hK) ((div_le_div_iff_of_pos_right hK).mpr h12)
  have hd1 : 0 ≤ Real.log (S1 / K) /
      (v * Real.sqrt (max (T / 1000 / (365.25 * 24 * 3600)) 1e-10)) :=
    div_nonneg hlog1 hden.le
  have hd12 : Real.log (S1 / K) /
      (v * Real.sqrt (max (T / 1000 / (365.25 * 24 * 3600)) 1e-10)) ≤
      Real.log (S2 / K) /
      (v * Real.sqrt (max (T / 1000 / (365.25 * 24 * 3600)) 1e-10)) :=
    (div_le_div_iff_of_pos_right hden).mpr hlog12
  exact max_le_max (le_refl _) (min_le_min (le_refl _) (normalCDF_mono hd1 hd12))

/-- C9 witness: the monotonicity theorem applied at strike 1, volatility 1,
expiry 0 and spots 2 and 3. -/
theorem pm_C9_fairValue_monotone_witness :
    (0:ℝ) < 1 ∧ (0:ℝ) < 1 ∧ (1:ℝ) < 2 ∧ (2:ℝ) ≤ 3 ∧
    computeFairValue 2 1 1 0 ≤ computeFairValue 3 1 1 0 :=
  ⟨by norm_num, by norm_num, by norm_num, by norm_num,
   pm_C9_fairValue_monotone 1 1 0 2 3 (by norm_num) (by norm_num) (by norm_num)
     (by norm_num)⟩

end PM
